import Mathlib

/-
Verification of the signup-time role-assignment protocol and the user-record
CRUD service of the nest-auth-permission repository.

The embedding models the relational store (Prisma over SQLite) as an explicit
state value holding the Role, User and Account (Credential) tables, and each
store primitive used by the source as a state-passing function returning
"Except DbErr".  String ids (cuids) are modelled as Nats drawn from a
freshness counter.  The argon2 digest function is external to the repository
and is modelled as an opaque injective tagging function.  Interactive
transactions ("prisma.$transaction") roll the state back to the pre-state
when the body throws, exactly as the store guarantees.  Fallible store writes
additionally take an injected-fault flag so that partial-failure behavior is
quantified over, not assumed away.
-/

set_option autoImplicit false

namespace NestAuth

/-- Role row: unique id, unique name, human description
(prisma model Role). -/
structure Role where
  id : Nat
  name : String
  description : String
deriving Repr, DecidableEq

/-- User row: unique id, unique email, display name, optional role reference
(prisma model User, relation User.role optional many-to-one). -/
structure User where
  id : Nat
  email : String
  name : String
  roleId : Option Nat
deriving Repr, DecidableEq

/-- Account row (the Credential relation): owning user id, provider id
(the fixed string "credential" for password auth), provider-scoped account
id (by convention the user id), hashed secret. -/
structure Account where
  userId : Nat
  providerId : String
  accountId : Nat
  password : String
deriving Repr, DecidableEq

/-- The relational store state: the three tables touched by this core plus a
freshness counter standing in for cuid generation. -/
structure Db where
  roles : List Role
  users : List User
  accounts : List Account
  nextId : Nat
deriving Repr, DecidableEq

/-- Store-level errors: "known" mirrors PrismaClientKnownRequestError with its
documented code field (P2002 unique-constraint violation, P2025 required
record not found, P2003 foreign-key constraint violation); "other" covers
transient connection or transaction faults. -/
inductive DbErr where
  | known (code : String) (msg : String)
  | other (msg : String)
deriving Repr, DecidableEq

/-- Service-level outcomes: the Nest exception classes raised by the source
(NotFoundException, UnprocessableEntityException, plain Error), a provider
error propagated from the identity provider, or a re-thrown raw store
error. -/
inductive SvcErr where
  | notFound (msg : String)
  | unprocessable (msg : String)
  | generic (msg : String)
  | provider (code : String) (msg : String)
  | db (e : DbErr)
deriving Repr, DecidableEq

/-- State-passing fallible store computation. -/
abbrev DbM (α : Type) : Type := Db → Except DbErr α × Db

/-- Argon2 digest, external to the repository; modelled as an opaque injective
tagging function (the claims only ever compare digests for equality). -/
def hash (plain : String) : String := String.append "argon2id$" plain

/-- Lookup of a role by unique name (prisma role find by name). -/
def findRoleByName (db : Db) (name : String) : Option Role :=
  db.roles.find? (fun r => r.name == name)

/-- Lookup of a role by id. -/
def findRoleById (db : Db) (id : Nat) : Option Role :=
  db.roles.find? (fun r => r.id == id)

/-- Lookup of a user by unique id (prisma user.findUnique where id). -/
def findUserById (db : Db) (id : Nat) : Option User :=
  db.users.find? (fun u => u.id == id)

/-- Lookup of a user by unique email (prisma user.findUnique where email).
Email comparison in the store is case-sensitive exact equality. -/
def findUserByEmail (db : Db) (email : String) : Option User :=
  db.users.find? (fun u => u.email == email)

/-- Prisma tx.role.upsert with where name, empty update clause, and a create
clause carrying name and description: return the existing row unchanged, or
insert a fresh one.  The fault flag injects a transient store failure. -/
def roleUpsert (name description : String) (fault : Bool) : DbM Role := fun db =>
  if fault then (Except.error (DbErr.other "transient store failure"), db)
  else
    match findRoleByName db name with
    | some r => (Except.ok r, db)
    | none =>
        let r : Role := { id := db.nextId, name := name, description := description }
        (Except.ok r, { db with roles := db.roles ++ [r], nextId := db.nextId + 1 })

/-- Prisma tx.user.create with email, name and roleId: P2002 when the unique
email already exists, P2003 when roleId violates referential integrity
(the store checks the unique constraint on the inserted email first),
otherwise insert a fresh row. -/
def userCreate (email name : String) (roleId : Nat) (fault : Bool) : DbM User := fun db =>
  if fault then (Except.error (DbErr.other "transient store failure"), db)
  else if (findUserByEmail db email).isSome then
    (Except.error (DbErr.known "P2002" "Unique constraint failed on the fields: (email)"), db)
  else if (findRoleById db roleId).isNone then
    (Except.error (DbErr.known "P2003" "Foreign key constraint failed on the field: roleId"), db)
  else
    let u : User := { id := db.nextId, email := email, name := name, roleId := some roleId }
    (Except.ok u, { db with users := db.users ++ [u], nextId := db.nextId + 1 })

/-- Prisma tx.account.create with userId, providerId, accountId and hashed
password: append the credential row. -/
def accountCreate (userId : Nat) (providerId : String) (accountId : Nat) (password : String)
    (fault : Bool) : DbM Account := fun db =>
  if fault then (Except.error (DbErr.other "transient store failure"), db)
  else
    let a : Account :=
      { userId := userId, providerId := providerId, accountId := accountId, password := password }
    (Except.ok a, { db with accounts := db.accounts ++ [a] })

/-- Prisma tx.user.update with where id and data name/email (undefined data
fields are ignored by the store): P2025 when no row matches the id, P2002
when the new email collides with another row, otherwise a single-row
update. -/
def userUpdateById (id : Nat) (email : Option String) (name : Option String)
    (fault : Bool) : DbM User := fun db =>
  if fault then (Except.error (DbErr.other "transient store failure"), db)
  else
    match findUserById db id with
    | none => (Except.error (DbErr.known "P2025" "Record to update not found."), db)
    | some u =>
        let u2 : User := { u with email := email.getD u.email, name := name.getD u.name }
        if db.users.any (fun v => v.id != u.id && v.email == u2.email) then
          (Except.error (DbErr.known "P2002" "Unique constraint failed on the fields: (email)"),
            db)
        else
          (Except.ok u2, { db with users := db.users.map (fun v => if v.id == id then u2 else v) })

/-- Prisma user.update with where id and data roleId: P2025 when no row
matches the id; when the row exists but roleId references no Role, the
store raises its foreign-key violation P2003; otherwise a single-row
update of the role reference. -/
def userUpdateRoleById (id : Nat) (roleId : Nat) : DbM User := fun db =>
  match findUserById db id with
  | none => (Except.error (DbErr.known "P2025" "Record to update not found."), db)
  | some u =>
      if (findRoleById db roleId).isNone then
        (Except.error (DbErr.known "P2003" "Foreign key constraint failed on the field: roleId"),
          db)
      else
        let u2 : User := { u with roleId := some roleId }
        (Except.ok u2, { db with users := db.users.map (fun v => if v.id == id then u2 else v) })

/-- Prisma tx.user.update with where email and data roleId: P2025 when no row
matches the email, P2003 when roleId references no Role, otherwise a
single-row update of the role reference. -/
def userUpdateRoleByEmail (email : String) (roleId : Nat) (fault : Bool) : DbM User := fun db =>
  if fault then (Except.error (DbErr.other "transient store failure"), db)
  else
    match findUserByEmail db email with
    | none => (Except.error (DbErr.known "P2025" "Record to update not found."), db)
    | some u =>
        if (findRoleById db roleId).isNone then
          (Except.error (DbErr.known "P2003" "Foreign key constraint failed on the field: roleId"),
            db)
        else
          let u2 : User := { u with roleId := some roleId }
          (Except.ok u2,
            { db with users := db.users.map (fun v => if v.email == email then u2 else v) })

/-- Prisma tx.account.updateMany with the compound where clause
userId, accountId, providerId, setting the hashed password on every
matching row; updateMany never throws on zero matches. -/
def accountUpdateMany (userId : Nat) (accountId : Nat) (providerId : String)
    (password : String) : DbM Nat := fun db =>
  let hits := fun (a : Account) =>
    a.userId == userId && a.accountId == accountId && a.providerId == providerId
  ((Except.ok ((db.accounts.filter hits).length)),
    { db with accounts :=
        db.accounts.map (fun a => if hits a then { a with password := password } else a) })

/-- Prisma user.delete with where id: P2025 when no row matches, otherwise
remove the row; the schema cascades the delete to owned Account rows. -/
def userDeleteById (id : Nat) : DbM User := fun db =>
  match findUserById db id with
  | none => (Except.error (DbErr.known "P2025" "Record to delete does not exist."), db)
  | some u =>
      (Except.ok u,
        { db with users := db.users.filter (fun v => v.id != id),
                  accounts := db.accounts.filter (fun a => a.userId != id) })

/-- Prisma interactive transaction: run the body; when the body throws, all
of its writes are rolled back and the caller observes the pre-state. -/
def transact {α : Type} (body : DbM α) : DbM α := fun db =>
  match body db with
  | (Except.ok a, db2) => (Except.ok a, db2)
  | (Except.error e, _) => (Except.error e, db)

/-- Test for the store duplicate-key signal the source matches on
(error instanceof PrismaClientKnownRequestError with code P2002). -/
def isP2002 : DbErr → Bool
  | DbErr.known c _ => c == "P2002"
  | DbErr.other _ => false

/-- Test for the store missing-record signal the source matches on
(error instanceof PrismaClientKnownRequestError with code P2025). -/
def isP2025 : DbErr → Bool
  | DbErr.known c _ => c == "P2025"
  | DbErr.other _ => false

/-- CreateUserDto of the users module: email, name, password required, roleId
optional. -/
structure CreateUserDto where
  email : String
  name : String
  password : String
  roleId : Option Nat
deriving Repr, DecidableEq

/-- UpdateUserDto of the users module: every field optional; an omitted field
is the undefined value that the store ignores. -/
structure UpdateUserDto where
  email : Option String
  name : Option String
  password : Option String
deriving Repr, DecidableEq

/-- Transaction body of UsersService.create: resolve the role id (upserting
the default USER role when the dto omits roleId), create the User row, then
create the Account row with provider "credential", accountId equal to the
new user id and the argon2 digest of the password (the digest is computed
before the transaction opens, as in the source). -/
def createTx (dto : CreateUserDto) (hashedPassword : String)
    (fUpsert fUser fAccount : Bool) : DbM User := fun db =>
  let step1 : Except DbErr Nat × Db :=
    match dto.roleId with
    | some r => (Except.ok r, db)
    | none =>
        match roleUpsert "USER" "Regular user" fUpsert db with
        | (Except.ok userRole, db1) => (Except.ok userRole.id, db1)
        | (Except.error e, db1) => (Except.error e, db1)
  match step1 with
  | (Except.error e, db1) => (Except.error e, db1)
  | (Except.ok roleId, db1) =>
      match userCreate dto.email dto.name roleId fUser db1 with
      | (Except.error e, db2) => (Except.error e, db2)
      | (Except.ok createdUser, db2) =>
          match accountCreate createdUser.id "credential" createdUser.id hashedPassword
              fAccount db2 with
          | (Except.error e, db3) => (Except.error e, db3)
          | (Except.ok _, db3) => (Except.ok createdUser, db3)

namespace UsersService

/-- UsersService.create: hash the password, run the create transaction, and
translate the store duplicate-key signal P2002 into
UnprocessableEntityException with the fixed generic text
"Invalid Credentials"; every other error is re-thrown raw. -/
def create (dto : CreateUserDto) (fUpsert fUser fAccount : Bool) :
    Db → Except SvcErr User × Db := fun db =>
  match transact (createTx dto (hash dto.password) fUpsert fUser fAccount) db with
  | (Except.ok u, db2) => (Except.ok u, db2)
  | (Except.error e, db2) =>
      if isP2002 e then (Except.error (SvcErr.unprocessable "Invalid Credentials"), db2)
      else (Except.error (SvcErr.db e), db2)

/-- Transaction body of UsersService.update: single-row update of the User
scalar fields, then, only when the dto carries a password, update the
matching Account rows through the compound filter
userId, accountId, providerId. -/
def updateTx (id : Nat) (dto : UpdateUserDto) (hashedPassword : Option String)
    (fUser : Bool) : DbM User := fun db =>
  match userUpdateById id dto.email dto.name fUser db with
  | (Except.error e, db1) => (Except.error e, db1)
  | (Except.ok user, db1) =>
      match hashedPassword with
      | none => (Except.ok user, db1)
      | some hp =>
          match accountUpdateMany id id "credential" hp db1 with
          | (Except.error e, db2) => (Except.error e, db2)
          | (Except.ok _, db2) => (Except.ok user, db2)

/-- UsersService.update: hash the password when present, run the update
transaction, and translate the store missing-record signal P2025 into
NotFoundException "User not found"; every other error is re-thrown raw. -/
def update (id : Nat) (dto : UpdateUserDto) (fUser : Bool) :
    Db → Except SvcErr User × Db := fun db =>
  match transact (updateTx id dto (dto.password.map hash) fUser) db with
  | (Except.ok u, db2) => (Except.ok u, db2)
  | (Except.error e, db2) =>
      if isP2025 e then (Except.error (SvcErr.notFound "User not found"), db2)
      else (Except.error (SvcErr.db e), db2)

/-- UsersService.updateRole: single-row update of the role reference, with
the store missing-record signal P2025 translated into NotFoundException
"User not found" and every other error re-thrown raw; the service performs
no pre-validation of roleId. -/
def updateRole (id : Nat) (roleId : Nat) : Db → Except SvcErr User × Db := fun db =>
  match userUpdateRoleById id roleId db with
  | (Except.ok u, db2) => (Except.ok u, db2)
  | (Except.error e, db2) =>
      if isP2025 e then (Except.error (SvcErr.notFound "User not found"), db2)
      else (Except.error (SvcErr.db e), db2)

/-- UsersService.findOne: lookup by id, NotFoundException "User not found"
when absent. -/
def findOne (id : Nat) : Db → Except SvcErr User × Db := fun db =>
  match findUserById db id with
  | none => (Except.error (SvcErr.notFound "User not found"), db)
  | some u => (Except.ok u, db)

/-- UsersService.remove: delete by id, with the store missing-record signal
P2025 translated into NotFoundException "User not found" and every other
error re-thrown raw. -/
def remove (id : Nat) : Db → Except SvcErr User × Db := fun db =>
  match userDeleteById id db with
  | (Except.ok u, db2) => (Except.ok u, db2)
  | (Except.error e, db2) =>
      if isP2025 e then (Except.error (SvcErr.notFound "User not found"), db2)
      else (Except.error (SvcErr.db e), db2)

end UsersService

/-- Lowercasing as performed by toLowerCase, character by character. -/
def toLowerCase (s : String) : String := String.mk (s.data.map Char.toLower)

/-- Admin-email policy shared verbatim by AuthService.isAdminEmail and
SignupHook.isAdminEmail: the optional-chained lowercase comparison
adminEmail?.toLowerCase() === email.toLowerCase(); an unset configuration
(config.get returning undefined) compares unequal to every string. -/
def isAdminEmail (adminEmail : Option String) (email : String) : Bool :=
  match adminEmail with
  | none => false
  | some a => toLowerCase a == toLowerCase email

/-- Role Assignment Policy classify of the specification, realized in the
source as the expression choosing "ADMIN" or "USER" from isAdminEmail. -/
def classify (email : String) (adminEmail : Option String) : String :=
  if isAdminEmail adminEmail email then "ADMIN" else "USER"

/-- Transaction body shared verbatim by AuthService.assignUserRole and
SignupHook.assignUserRole: upsert the ADMIN or USER role, then bind the
user row selected by email to the resolved role id. -/
def assignUserRole (email : String) (isAdmin : Bool) (fUpsert fBind : Bool) : DbM User :=
  fun db =>
  match roleUpsert (if isAdmin then "ADMIN" else "USER")
      (if isAdmin then "Administrator" else "Regular user") fUpsert db with
  | (Except.error e, db1) => (Except.error e, db1)
  | (Except.ok role, db1) => userUpdateRoleByEmail email role.id fBind db1

/-- SignupDto of the auth module. -/
structure SignupDto where
  email : String
  password : String
  name : String
deriving Repr, DecidableEq

/-- Result returned by the identity provider signUpEmail call (identity plus
session token), passed through unchanged by the orchestrator. -/
structure SignupResult where
  token : String
deriving Repr, DecidableEq

namespace AuthService

/-- AuthService.signup: delegate credential creation to the identity provider
signUpEmail (an external call, supplied here as a function on the store
state), then classify the email and run the role-binding transaction.  The
source wraps none of this in a try/catch: a provider error and a
role-binding error both propagate to the caller unchanged. -/
def signup (signUpEmail : Db → Except SvcErr SignupResult × Db) (dto : SignupDto)
    (adminEmail : Option String) (fUpsert fBind : Bool) :
    Db → Except SvcErr SignupResult × Db := fun db =>
  match signUpEmail db with
  | (Except.error e, db1) => (Except.error e, db1)
  | (Except.ok result, db1) =>
      let isAdmin := isAdminEmail adminEmail dto.email
      match transact (assignUserRole dto.email isAdmin fUpsert fBind) db1 with
      | (Except.ok _, db2) => (Except.ok result, db2)
      | (Except.error e, db2) => (Except.error (SvcErr.db e), db2)

end AuthService

namespace SignupHook

/-- SignupHook.handle, the after-signup hook on /sign-up/email: look the user
up by the email in the hook context; when absent the upstream signup failed
and the hook returns silently without touching the store; when present it
runs the role-binding transaction and maps any failure of it to the plain
Error "Unable to create account". -/
def handle (email : String) (adminEmail : Option String) (fUpsert fBind : Bool) :
    Db → Except SvcErr Unit × Db := fun db =>
  match findUserByEmail db email with
  | none => (Except.ok (), db)
  | some _ =>
      match transact (assignUserRole email (isAdminEmail adminEmail email) fUpsert fBind) db with
      | (Except.ok _, db2) => (Except.ok (), db2)
      | (Except.error _, _) => (Except.error (SvcErr.generic "Unable to create account"), db)

end SignupHook

/-- Number of role rows carrying a given name. -/
def countRolesNamed (db : Db) (name : String) : Nat :=
  (db.roles.filter (fun r => r.name == name)).length

/-- Character-list test for one list occurring as a prefix of another. -/
def charsHavePrefix : List Char → List Char → Bool
  | [], _ => true
  | _ :: _, [] => false
  | a :: ps, b :: l => a == b && charsHavePrefix ps l

/-- Character-list test for one list occurring contiguously inside another. -/
def charsHaveInfix (pat : List Char) : List Char → Bool
  | [] => charsHavePrefix pat []
  | b :: l => charsHavePrefix pat (b :: l) || charsHaveInfix pat l

/-- Substring occurrence test used to state the anti-enumeration wording
conditions on fixed message texts. -/
def mentions (s pat : String) : Bool := charsHaveInfix pat.data s.data

/-- Empty store. -/
def demoDb0 : Db := { roles := [], users := [], accounts := [], nextId := 0 }

/-- Create dto used by concrete runs. -/
def dtoAlice : CreateUserDto :=
  { email := "a@b.c", name := "Alice", password := "password123", roleId := none }

/-- Create dto reusing an email that concrete stores already hold. -/
def dtoBob : CreateUserDto :=
  { email := "a@b.c", name := "Bob", password := "password456", roleId := none }

/-- User row produced by the concrete create run on the empty store. -/
def uAlice : User := { id := 1, email := "a@b.c", name := "Alice", roleId := some 0 }

/-- Credential row produced by the concrete create run on the empty store. -/
def accAlice : Account :=
  { userId := 1, providerId := "credential", accountId := 1, password := "argon2id$password123" }

/-- Store produced by the concrete create run on the empty store. -/
def dbAfterCreate : Db :=
  { roles := [{ id := 0, name := "USER", description := "Regular user" }],
    users := [uAlice], accounts := [accAlice], nextId := 2 }

/-- Roleless user row as left behind by an identity provider signup whose
role binding has not happened yet. -/
def uAliceNoRole : User := { id := 1, email := "a@b.c", name := "Alice", roleId := none }

/-- Store holding a single roleless user, as left behind by an identity
provider signup whose role binding has not happened yet. -/
def dbUser1 : Db :=
  { roles := [], users := [uAliceNoRole], accounts := [], nextId := 2 }

/-- Store produced by the signup hook binding the ADMIN role on dbUser1. -/
def dbSignupAdmin : Db :=
  { roles := [{ id := 2, name := "ADMIN", description := "Administrator" }],
    users := [{ id := 1, email := "a@b.c", name := "Alice", roleId := some 2 }],
    accounts := [], nextId := 3 }

/-- Store holding one roleless user together with an unreferenced USER
role. -/
def dbRoleAndUser : Db :=
  { roles := [{ id := 5, name := "USER", description := "Regular user" }],
    users := [{ id := 1, email := "a@b.c", name := "Alice", roleId := none }],
    accounts := [], nextId := 6 }

/-- Store holding one user together with the USER role and the matching
credential row plus a foreign credential row that shares the user id but
belongs to a different provider. -/
def dbUserWithAccounts : Db :=
  { roles := [{ id := 0, name := "USER", description := "Regular user" }],
    users := [{ id := 1, email := "a@b.c", name := "Alice", roleId := some 0 }],
    accounts :=
      [{ userId := 1, providerId := "credential", accountId := 1, password := "argon2id$old" },
       { userId := 1, providerId := "github", accountId := 7, password := "argon2id$tok" }],
    nextId := 2 }

/-- Update dto carrying only a new password. -/
def dtoPw : UpdateUserDto := { email := none, name := none, password := some "newpass123" }

/-- Update dto carrying only a new display name. -/
def dtoName : UpdateUserDto := { email := none, name := some "Alicia", password := none }

/-- User row after the name-only update. -/
def uAliceRenamed : User := { id := 1, email := "a@b.c", name := "Alicia", roleId := some 0 }

/-- Store after the password-only update on dbUserWithAccounts: only the
compound-matched credential row carries the new digest. -/
def dbAfterPwUpdate : Db :=
  { roles := [{ id := 0, name := "USER", description := "Regular user" }],
    users := [{ id := 1, email := "a@b.c", name := "Alice", roleId := some 0 }],
    accounts :=
      [{ userId := 1, providerId := "credential", accountId := 1,
         password := "argon2id$newpass123" },
       { userId := 1, providerId := "github", accountId := 7, password := "argon2id$tok" }],
    nextId := 2 }

/-- Store after the name-only update on dbUserWithAccounts: both credential
rows and the role table are exactly in place. -/
def dbAfterRename : Db :=
  { roles := [{ id := 0, name := "USER", description := "Regular user" }],
    users := [uAliceRenamed],
    accounts :=
      [{ userId := 1, providerId := "credential", accountId := 1, password := "argon2id$old" },
       { userId := 1, providerId := "github", accountId := 7, password := "argon2id$tok" }],
    nextId := 2 }

/-- A rolled-back transaction leaves the caller on the pre-state. -/
theorem transact_error_elim {α : Type} (body : DbM α) (db db2 : Db) (e : DbErr)
    (h : transact body db = (Except.error e, db2)) : db2 = db := by
  unfold transact at h
  cases hb : body db with
  | mk res db1 =>
      rw [hb] at h
      cases res with
      | ok a => simp at h
      | error e1 => simp at h; exact h.2.symm

/-- A committed transaction is exactly its body run. -/
theorem transact_ok_elim {α : Type} (body : DbM α) (db db2 : Db) (a : α)
    (h : transact body db = (Except.ok a, db2)) : body db = (Except.ok a, db2) := by
  unfold transact at h
  cases hb : body db with
  | mk res db1 =>
      rw [hb] at h
      cases res with
      | ok b => simp at h; rw [h.1, h.2]
      | error e1 => simp at h

/-- Searching an appended list passes over a prefix with no hit. -/
theorem find?_append_none {α : Type} (p : α → Bool) (l1 l2 : List α)
    (h : l1.find? p = none) : (l1 ++ l2).find? p = l2.find? p := by
  rw [List.find?_append, h, Option.none_or]

/-- A list with no hit filters to the empty list. -/
theorem filter_eq_nil_of_find?_none {α : Type} (p : α → Bool) (l : List α)
    (h : l.find? p = none) : l.filter p = [] := by
  rw [List.filter_eq_nil_iff]
  exact List.find?_eq_none.mp h

/-- A list with a hit filters to a nonempty list. -/
theorem length_filter_pos_of_find?_some {α : Type} (p : α → Bool) (l : List α) (r : α)
    (h : l.find? p = some r) : 0 < (l.filter p).length := by
  have hm : r ∈ l.filter p := List.mem_filter.mpr ⟨List.mem_of_find?_eq_some h, List.find?_some h⟩
  exact List.length_pos.mpr (fun hnil => by simp [hnil] at hm)

/-- Replacing every hit of a search by a fixed hit keeps the first hit at the
same position, now carrying the replacement. -/
theorem find?_map_ite {α : Type} (p : α → Bool) (w : α) (l : List α) (u : α)
    (h : l.find? p = some u) (hw : p w = true) :
    (l.map (fun v => if p v then w else v)).find? p = some w := by
  induction l with
  | nil => cases h
  | cons a t ih =>
      cases hpa : p a with
      | true =>
          simp only [List.map_cons, hpa, if_true]
          rw [List.find?_cons_of_pos _ hw]
      | false =>
          rw [List.find?_cons_of_neg _ (by simp [hpa])] at h
          simp only [List.map_cons, hpa, if_false]
          rw [List.find?_cons_of_neg _ (by simp [hpa]), ih h]

/-- A successful scalar update of a user row is a pointwise replacement of
that row, leaving roles and accounts untouched; absent dto fields keep the
stored values. -/
theorem userUpdateById_ok_elim (id : Nat) (em nm : Option String) (f : Bool) (db db1 : Db)
    (u1 : User) (h : userUpdateById id em nm f db = (Except.ok u1, db1)) :
    ∃ u0, findUserById db id = some u0 ∧
      u1 = { u0 with email := em.getD u0.email, name := nm.getD u0.name } ∧
      db1 = { db with users := db.users.map (fun v => if v.id == id then u1 else v) } := by
  cases f with
  | true => simp [userUpdateById] at h
  | false =>
      unfold userUpdateById at h
      cases hfu : findUserById db id with
      | none => rw [hfu] at h; simp at h
      | some u0 =>
          rw [hfu] at h
          simp only at h
          cases hdup : db.users.any
              (fun v => v.id != u0.id && v.email == (em.getD u0.email)) with
          | true => rw [hdup] at h; simp at h
          | false =>
              rw [hdup] at h
              simp only [Bool.false_eq_true, ite_false, Prod.mk.injEq,
                Except.ok.injEq] at h
              obtain ⟨hu, hdb⟩ := h
              subst hu
              exact ⟨u0, rfl, rfl, hdb.symm⟩

/-- A successful role upsert returns a row carrying the requested name, found
again by a name lookup on the post-state; users and accounts are untouched,
and the store either already held the row (state unchanged) or gained
exactly that row. -/
theorem roleUpsert_ok_elim (name desc : String) (f : Bool) (db db1 : Db) (r : Role)
    (h : roleUpsert name desc f db = (Except.ok r, db1)) :
    r.name = name ∧ findRoleByName db1 name = some r ∧
    db1.users = db.users ∧ db1.accounts = db.accounts ∧
    (db1.roles = db.roles ∨ db1.roles = db.roles ++ [r]) := by
  cases f with
  | true => simp [roleUpsert] at h
  | false =>
      unfold roleUpsert at h
      cases hfr : findRoleByName db name with
      | some r0 =>
          rw [hfr] at h
          simp only [Bool.false_eq_true, ite_false, Prod.mk.injEq, Except.ok.injEq] at h
          obtain ⟨hr, hdb⟩ := h
          subst hr
          subst hdb
          refine ⟨?_, hfr, rfl, rfl, Or.inl rfl⟩
          have := List.find?_some hfr
          simpa using this
      | none =>
          rw [hfr] at h
          simp only [Bool.false_eq_true, ite_false, Prod.mk.injEq, Except.ok.injEq] at h
          obtain ⟨hr, hdb⟩ := h
          subst hr
          subst hdb
          refine ⟨rfl, ?_, rfl, rfl, Or.inr rfl⟩
          unfold findRoleByName at hfr ⊢
          simp only
          rw [find?_append_none _ _ _ hfr]
          simp

/-- A successful user creation returns the fresh row with the requested
fields and appends exactly it, leaving roles and accounts untouched. -/
theorem userCreate_ok_elim (em nm : String) (rid : Nat) (f : Bool) (db db1 : Db) (u : User)
    (h : userCreate em nm rid f db = (Except.ok u, db1)) :
    u = { id := db.nextId, email := em, name := nm, roleId := some rid } ∧
    db1.users = db.users ++ [u] ∧ db1.roles = db.roles ∧ db1.accounts = db.accounts := by
  cases f with
  | true => simp [userCreate] at h
  | false =>
      unfold userCreate at h
      cases hdup : (findUserByEmail db em).isSome with
      | true => rw [hdup] at h; simp at h
      | false =>
          rw [hdup] at h
          cases hfk : (findRoleById db rid).isNone with
          | true => rw [hfk] at h; simp at h
          | false =>
              rw [hfk] at h
              simp only [Bool.false_eq_true, ite_false, Prod.mk.injEq, Except.ok.injEq] at h
              obtain ⟨hu, hdb⟩ := h
              subst hu
              subst hdb
              exact ⟨rfl, rfl, rfl, rfl⟩

/-- A successful account creation appends exactly the requested credential
row, leaving roles and users untouched. -/
theorem accountCreate_ok_elim (uid : Nat) (pid : String) (aid : Nat) (pw : String) (f : Bool)
    (db db1 : Db) (a : Account) (h : accountCreate uid pid aid pw f db = (Except.ok a, db1)) :
    db1.accounts = db.accounts ++
      [{ userId := uid, providerId := pid, accountId := aid, password := pw }] ∧
    db1.users = db.users ∧ db1.roles = db.roles := by
  cases f with
  | true => simp [accountCreate] at h
  | false =>
      unfold accountCreate at h
      simp only [Bool.false_eq_true, ite_false, Prod.mk.injEq, Except.ok.injEq] at h
      obtain ⟨ha, hdb⟩ := h
      subst hdb
      exact ⟨rfl, rfl, rfl⟩

/-- Run of the create transaction body with the default-role path: on success
the post-state extends the pre-state with exactly the new user row bound to
the USER role and exactly one credential row with provider "credential",
account id equal to the user id and the supplied digest. -/
theorem createTx_ok_default (dto : CreateUserDto) (hp : String) (f1 f2 f3 : Bool) (db : Db)
    (hrole : dto.roleId = none) (u : User) (db2 : Db)
    (h : createTx dto hp f1 f2 f3 db = (Except.ok u, db2)) :
    (∃ r, findRoleByName db2 "USER" = some r ∧ r.name = "USER" ∧ u.roleId = some r.id) ∧
    db2.users = db.users ++ [u] ∧
    db2.accounts = db.accounts ++
      [{ userId := u.id, providerId := "credential", accountId := u.id, password := hp }] := by
  unfold createTx at h
  rw [hrole] at h
  cases hru : roleUpsert "USER" "Regular user" f1 db with
  | mk res1 db1 =>
      rw [hru] at h
      cases res1 with
      | error e => simp at h
      | ok role =>
          simp only at h
          obtain ⟨hrn, hfind1, husers1, haccts1, hroles1⟩ :=
            roleUpsert_ok_elim "USER" "Regular user" f1 db db1 role hru
          cases huc : userCreate dto.email dto.name role.id f2 db1 with
          | mk res2 dbU =>
              rw [huc] at h
              cases res2 with
              | error e => simp at h
              | ok newU =>
                  simp only at h
                  obtain ⟨hnu, husers2, hroles2, haccts2⟩ :=
                    userCreate_ok_elim dto.email dto.name role.id f2 db1 dbU newU huc
                  cases hac : accountCreate newU.id "credential" newU.id hp f3 dbU with
                  | mk res3 db3 =>
                      rw [hac] at h
                      cases res3 with
                      | error e => simp at h
                      | ok acc =>
                          simp only [Prod.mk.injEq, Except.ok.injEq] at h
                          obtain ⟨hu, hdb⟩ := h
                          subst hu
                          subst hdb
                          obtain ⟨haccts3, husers3, hroles3⟩ :=
                            accountCreate_ok_elim newU.id "credential" newU.id hp f3 dbU db3
                              acc hac
                          refine ⟨⟨role, ?_, hrn, by rw [hnu]⟩, ?_, ?_⟩
                          · unfold findRoleByName at hfind1 ⊢
                            rw [hroles3, hroles2]
                            exact hfind1
                          · rw [husers3, husers2, husers1]
                          · rw [haccts3, haccts2, haccts1]

/-- A role upsert with no injected fault always succeeds and never touches
the user table. -/
theorem roleUpsert_false_total (name desc : String) (db : Db) :
    ∃ r db1, roleUpsert name desc false db = (Except.ok r, db1) ∧ db1.users = db.users := by
  unfold roleUpsert
  cases hfr : findRoleByName db name with
  | some r => exact ⟨r, db, by simp, rfl⟩
  | none =>
      exact ⟨{ id := db.nextId, name := name, description := desc },
        { db with roles := db.roles ++ [{ id := db.nextId, name := name, description := desc }],
                  nextId := db.nextId + 1 }, by simp, rfl⟩

/-- A successful service create is exactly a committed run of the create
transaction body on the digest of the dto password. -/
theorem usersService_create_ok_elim (dto : CreateUserDto) (f1 f2 f3 : Bool) (db db2 : Db)
    (u : User) (h : UsersService.create dto f1 f2 f3 db = (Except.ok u, db2)) :
    createTx dto (hash dto.password) f1 f2 f3 db = (Except.ok u, db2) := by
  unfold UsersService.create at h
  cases ht : transact (createTx dto (hash dto.password) f1 f2 f3) db with
  | mk res dbt =>
      rw [ht] at h
      cases res with
      | ok a =>
          simp only [Prod.mk.injEq, Except.ok.injEq] at h
          obtain ⟨ha, hdb⟩ := h
          subst ha
          subst hdb
          exact transact_ok_elim _ _ _ _ ht
      | error e =>
          simp only at h
          cases hp2 : isP2002 e with
          | true => rw [hp2] at h; simp at h
          | false => rw [hp2] at h; simp at h

/-- A failed service create leaves the store exactly on the pre-state: the
transaction rolled every partial write back. -/
theorem usersService_create_error_elim (dto : CreateUserDto) (f1 f2 f3 : Bool) (db db2 : Db)
    (e : SvcErr) (h : UsersService.create dto f1 f2 f3 db = (Except.error e, db2)) : db2 = db := by
  unfold UsersService.create at h
  cases ht : transact (createTx dto (hash dto.password) f1 f2 f3) db with
  | mk res dbt =>
      rw [ht] at h
      have hdbt := transact_error_elim (createTx dto (hash dto.password) f1 f2 f3) db dbt
      cases res with
      | ok a => simp at h
      | error e1 =>
          simp only at h
          cases hp2 : isP2002 e1 with
          | true =>
              rw [hp2] at h
              simp only [ite_true, Prod.mk.injEq, Except.error.injEq] at h
              rw [h.2.symm]
              exact hdbt e1 ht
          | false =>
              rw [hp2] at h
              simp only [Bool.false_eq_true, ite_false, Prod.mk.injEq, Except.error.injEq] at h
              rw [h.2.symm]
              exact hdbt e1 ht

/-- With a duplicate email in the store, the create transaction body always
stops at the user insert with the store duplicate-key error P2002. -/
theorem createTx_duplicate (dto : CreateUserDto) (hp : String) (db : Db)
    (hdup : (findUserByEmail db dto.email).isSome = true) :
    ∃ dbx, createTx dto hp false false false db =
      (Except.error (DbErr.known "P2002" "Unique constraint failed on the fields: (email)"),
        dbx) := by
  unfold createTx
  cases hdr : dto.roleId with
  | some rid =>
      refine ⟨db, ?_⟩
      simp only
      unfold userCreate
      rw [hdup]
      rfl
  | none =>
      obtain ⟨r, db1, hru, husers⟩ := roleUpsert_false_total "USER" "Regular user" db
      rw [hru]
      refine ⟨db1, ?_⟩
      simp only
      unfold userCreate
      have hdup1 : (findUserByEmail db1 dto.email).isSome = true := by
        unfold findUserByEmail at hdup ⊢
        rw [husers]
        exact hdup
      rw [hdup1]
      rfl

/-- C4: create with roleId omitted resolves the default USER role through the
role upsert and, inside one transaction, creates the User row bound to that
role together with a Credential row whose provider is the fixed string
"credential", whose account id equals the new user id and whose secret is
the digest of the password; under any injected mid-sequence fault the
operation fails and the store is exactly the pre-state — no partial row
survives. -/
theorem usersService_create_default_role_atomic (dto : CreateUserDto) (f1 f2 f3 : Bool)
    (db : Db) (hrole : dto.roleId = none) :
    (∀ u db2, UsersService.create dto f1 f2 f3 db = (Except.ok u, db2) →
      (∃ r, findRoleByName db2 "USER" = some r ∧ r.name = "USER" ∧ u.roleId = some r.id) ∧
      db2.users = db.users ++ [u] ∧
      db2.accounts = db.accounts ++
        [{ userId := u.id, providerId := "credential", accountId := u.id,
           password := hash dto.password }]) ∧
    (∀ e db2, UsersService.create dto f1 f2 f3 db = (Except.error e, db2) → db2 = db) := by
  constructor
  · intro u db2 h
    exact createTx_ok_default dto (hash dto.password) f1 f2 f3 db hrole u db2
      (usersService_create_ok_elim dto f1 f2 f3 db db2 u h)
  · intro e db2 h
    exact usersService_create_error_elim dto f1 f2 f3 db db2 e h

/-- C4 witness: creating a user on the empty store yields the USER role row,
the user row bound to it, and the credential row with provider
"credential", account id equal to the user id, and the password digest. -/
theorem usersService_create_default_role_atomic_witness :
    (∃ r, findRoleByName dbAfterCreate "USER" = some r ∧ r.name = "USER" ∧
      uAlice.roleId = some r.id) ∧
    dbAfterCreate.users = demoDb0.users ++ [uAlice] ∧
    dbAfterCreate.accounts = demoDb0.accounts ++
      [{ userId := uAlice.id, providerId := "credential", accountId := uAlice.id,
         password := hash dtoAlice.password }] :=
  (usersService_create_default_role_atomic dtoAlice false false false demoDb0 rfl).1
    uAlice dbAfterCreate rfl

/-- C6: on a store already holding the dto email, create fails with the
Conflict-class UnprocessableEntityException carrying the fixed generic text
"Invalid Credentials" and the pre-state; the text never contains the words
"duplicate" or "exists" and never echoes "email taken". -/
theorem usersService_create_duplicate_generic (dto : CreateUserDto) (db : Db)
    (hdup : ∃ u, u ∈ db.users ∧ u.email = dto.email) :
    UsersService.create dto false false false db =
      (Except.error (SvcErr.unprocessable "Invalid Credentials"), db) ∧
    mentions "Invalid Credentials" "duplicate" = false ∧
    mentions "Invalid Credentials" "exists" = false ∧
    mentions "Invalid Credentials" "email taken" = false := by
  obtain ⟨u, hm, he⟩ := hdup
  have hsome : (findUserByEmail db dto.email).isSome = true := by
    unfold findUserByEmail
    exact List.find?_isSome.mpr ⟨u, hm, by simp [he]⟩
  obtain ⟨dbx, htx⟩ := createTx_duplicate dto (hash dto.password) db hsome
  refine ⟨?_, by decide, by decide, by decide⟩
  unfold UsersService.create transact
  rw [htx]
  rfl

/-- C6 witness: re-creating the email "a@b.c" on a store already holding it
yields exactly the generic conflict error and the unchanged store. -/
theorem usersService_create_duplicate_generic_witness :
    UsersService.create dtoBob false false false dbUser1 =
      (Except.error (SvcErr.unprocessable "Invalid Credentials"), dbUser1) :=
  (usersService_create_duplicate_generic dtoBob dbUser1
    ⟨{ id := 1, email := "a@b.c", name := "Alice", roleId := none },
      by simp [dbUser1, uAliceNoRole], rfl⟩).1

/-- A successful run of the update transaction body: the user row is replaced
pointwise (absent dto fields keeping their stored values), roles are
untouched, and the accounts are untouched when no digest was supplied and
rewritten through the compound filter when one was. -/
theorem usersServiceUpdateTx_ok_elim (id : Nat) (dto : UpdateUserDto) (hp : Option String) (f : Bool)
    (db db2 : Db) (u : User) (h : UsersService.updateTx id dto hp f db = (Except.ok u, db2)) :
    (∃ u0, findUserById db id = some u0 ∧
      u = { u0 with email := dto.email.getD u0.email, name := dto.name.getD u0.name }) ∧
    db2.users = db.users.map (fun v => if v.id == id then u else v) ∧
    db2.roles = db.roles ∧
    db2.accounts = (match hp with
      | none => db.accounts
      | some hpw => db.accounts.map (fun a =>
          if a.userId == id && a.accountId == id && a.providerId == "credential"
          then { a with password := hpw } else a)) := by
  unfold UsersService.updateTx at h
  cases huu : userUpdateById id dto.email dto.name f db with
  | mk res1 db1 =>
      rw [huu] at h
      cases res1 with
      | error e => simp at h
      | ok u1 =>
          simp only at h
          obtain ⟨u0, hfu, hu1, hdb1⟩ :=
            userUpdateById_ok_elim id dto.email dto.name f db db1 u1 huu
          cases hp with
          | none =>
              simp only [Prod.mk.injEq, Except.ok.injEq] at h
              obtain ⟨h1, h2⟩ := h
              subst h1
              subst h2
              subst hdb1
              exact ⟨⟨u0, hfu, hu1⟩, rfl, rfl, rfl⟩
          | some hpw =>
              simp only at h
              unfold accountUpdateMany at h
              simp only [Prod.mk.injEq, Except.ok.injEq] at h
              obtain ⟨h1, h2⟩ := h
              subst h1
              subst h2
              subst hdb1
              exact ⟨⟨u0, hfu, hu1⟩, rfl, rfl, rfl⟩

/-- A successful service update is exactly a committed run of the update
transaction body on the digest of the dto password. -/
theorem usersService_update_ok_elim (id : Nat) (dto : UpdateUserDto) (f : Bool) (db db2 : Db)
    (u : User) (h : UsersService.update id dto f db = (Except.ok u, db2)) :
    UsersService.updateTx id dto (dto.password.map hash) f db = (Except.ok u, db2) := by
  unfold UsersService.update at h
  cases ht : transact (UsersService.updateTx id dto (dto.password.map hash) f) db with
  | mk res dbt =>
      rw [ht] at h
      cases res with
      | ok a =>
          simp only [Prod.mk.injEq, Except.ok.injEq] at h
          obtain ⟨ha, hdb⟩ := h
          subst ha
          subst hdb
          exact transact_ok_elim _ _ _ _ ht
      | error e =>
          simp only at h
          cases hp2 : isP2025 e with
          | true => rw [hp2] at h; simp at h
          | false => rw [hp2] at h; simp at h

/-- C5: when update carries a password, the credential table is rewritten
through the full compound filter — user id, account id and provider id all
equal to the convention values — so a row sharing the user id but a
different provider or account id is never touched; and an update aimed at a
nonexistent user id fails with NotFound "User not found" on the unchanged
store. -/
theorem usersService_update_compound_filter (id : Nat) (dto : UpdateUserDto) (f : Bool)
    (db : Db) :
    (∀ pw u db2, dto.password = some pw →
      UsersService.update id dto f db = (Except.ok u, db2) →
      db2.accounts = db.accounts.map (fun a =>
        if a.userId == id && a.accountId == id && a.providerId == "credential"
        then { a with password := hash pw } else a) ∧
      ∀ a, a ∈ db.accounts → a.providerId ≠ "credential" → a ∈ db2.accounts) ∧
    (findUserById db id = none →
      UsersService.update id dto false db =
        (Except.error (SvcErr.notFound "User not found"), db)) := by
  constructor
  · intro pw u db2 hpw h
    obtain ⟨dtoe, dton, dtop⟩ := dto
    have hpw2 : dtop = some pw := hpw
    subst hpw2
    have helim := usersServiceUpdateTx_ok_elim id ⟨dtoe, dton, some pw⟩
      ((some pw).map hash) f db db2 u
      (usersService_update_ok_elim id ⟨dtoe, dton, some pw⟩ f db db2 u h)
    have haccts : db2.accounts = db.accounts.map (fun a =>
        if a.userId == id && a.accountId == id && a.providerId == "credential"
        then { a with password := hash pw } else a) := helim.2.2.2
    refine ⟨haccts, fun a ha hne => ?_⟩
    rw [haccts]
    refine List.mem_map.mpr ⟨a, ha, ?_⟩
    have hb : (a.providerId == "credential") = false := beq_eq_false_iff_ne.mpr hne
    simp [hb]
  · intro hnone
    unfold UsersService.update transact UsersService.updateTx userUpdateById
    rw [hnone]
    rfl

/-- C5 witness: on a store holding the user, its password credential and a
second credential of another provider sharing the user id, an update with a
password rewrites only the compound-matched row and keeps the foreign
provider row; and an update aimed at a missing id reports NotFound. -/
theorem usersService_update_compound_filter_witness :
    ((UsersService.update 1 dtoPw false dbUserWithAccounts).2.accounts =
      dbUserWithAccounts.accounts.map (fun a =>
        if a.userId == 1 && a.accountId == 1 && a.providerId == "credential"
        then { a with password := hash "newpass123" } else a) ∧
      { userId := 1, providerId := "github", accountId := 7, password := "argon2id$tok" } ∈
        (UsersService.update 1 dtoPw false dbUserWithAccounts).2.accounts) ∧
    UsersService.update 9 dtoPw false demoDb0 =
      (Except.error (SvcErr.notFound "User not found"), demoDb0) := by
  constructor
  · have h := (usersService_update_compound_filter 1 dtoPw false dbUserWithAccounts).1
      "newpass123" uAlice dbAfterPwUpdate rfl rfl
    exact ⟨h.1, h.2 _ (by simp [dbUserWithAccounts]) (by decide)⟩
  · exact (usersService_update_compound_filter 9 dtoPw false demoDb0).2 rfl

/-- A successful role binding by email is a pointwise replacement of the
addressed user row with the row carrying the new role reference. -/
theorem userUpdateRoleByEmail_ok_elim (email : String) (rid : Nat) (f : Bool) (db dbM : Db)
    (u2 : User) (h : userUpdateRoleByEmail email rid f db = (Except.ok u2, dbM)) :
    ∃ u, findUserByEmail db email = some u ∧ u2 = { u with roleId := some rid } ∧
      dbM = { db with users := db.users.map (fun v => if v.email == email then u2 else v) } := by
  cases f with
  | true => simp [userUpdateRoleByEmail] at h
  | false =>
      unfold userUpdateRoleByEmail at h
      cases hfu : findUserByEmail db email with
      | none => rw [hfu] at h; simp at h
      | some u =>
          rw [hfu] at h
          simp only at h
          cases hfk : (findRoleById db rid).isNone with
          | true => rw [hfk] at h; simp at h
          | false =>
              rw [hfk] at h
              simp only [Bool.false_eq_true, ite_false, Prod.mk.injEq, Except.ok.injEq] at h
              obtain ⟨h1, h2⟩ := h
              subst h1
              exact ⟨u, rfl, rfl, h2.symm⟩

/-- A successful run of the role-binding transaction body: the bound role row
carries the ADMIN or USER name picked by the flag, is found by name on the
post-state, and the addressed user row is rebound to it in place. -/
theorem assignUserRole_ok_elim (email : String) (isAdmin : Bool) (f1 f2 : Bool) (db dbM : Db)
    (u2 : User) (h : assignUserRole email isAdmin f1 f2 db = (Except.ok u2, dbM)) :
    ∃ role u, findUserByEmail db email = some u ∧
      role.name = (if isAdmin then "ADMIN" else "USER") ∧
      findRoleByName dbM (if isAdmin then "ADMIN" else "USER") = some role ∧
      u2 = { u with roleId := some role.id } ∧
      findUserByEmail dbM email = some u2 := by
  unfold assignUserRole at h
  cases hru : roleUpsert (if isAdmin then "ADMIN" else "USER")
      (if isAdmin then "Administrator" else "Regular user") f1 db with
  | mk res1 db1 =>
      rw [hru] at h
      cases res1 with
      | error e => simp at h
      | ok role =>
          simp only at h
          obtain ⟨hrn, hfind1, husers1, haccts1, hroles1⟩ :=
            roleUpsert_ok_elim _ _ f1 db db1 role hru
          obtain ⟨u, hfu, hu2, hdbM⟩ :=
            userUpdateRoleByEmail_ok_elim email role.id f2 db1 dbM u2 h
          refine ⟨role, u, ?_, hrn, ?_, hu2, ?_⟩
          · unfold findUserByEmail at hfu ⊢
            rw [husers1] at hfu
            exact hfu
          · subst hdbM
            unfold findRoleByName at hfind1 ⊢
            exact hfind1
          · subst hdbM
            unfold findUserByEmail at hfu ⊢
            simp only
            refine find?_map_ite (fun v => v.email == email) u2 db1.users u hfu ?_
            have hpu := List.find?_some hfu
            rw [hu2]
            exact hpu

/-- C9: a successful update touches exactly the addressed user row — absent
dto fields keep their stored values, rows with other ids survive in place,
roles are untouched, and when no password is supplied the credential table
is not modified at all. -/
theorem usersService_update_frame (id : Nat) (dto : UpdateUserDto) (f : Bool) (db : Db) :
    ∀ u db2, UsersService.update id dto f db = (Except.ok u, db2) →
      (∃ u0, findUserById db id = some u0 ∧
        u = { u0 with email := dto.email.getD u0.email, name := dto.name.getD u0.name }) ∧
      db2.users = db.users.map (fun v => if v.id == id then u else v) ∧
      db2.roles = db.roles ∧
      (dto.password = none → db2.accounts = db.accounts) := by
  intro u db2 h
  obtain ⟨dtoe, dton, dtop⟩ := dto
  have helim := usersServiceUpdateTx_ok_elim id ⟨dtoe, dton, dtop⟩ (dtop.map hash) f db db2 u
    (usersService_update_ok_elim id ⟨dtoe, dton, dtop⟩ f db db2 u h)
  refine ⟨helim.1, helim.2.1, helim.2.2.1, fun hpw => ?_⟩
  have hpw2 : dtop = none := hpw
  subst hpw2
  exact helim.2.2.2

/-- C9 witness: updating only the name of user 1 keeps the stored email,
leaves both credential rows and the role table exactly in place, and
rewrites the user list pointwise. -/
theorem usersService_update_frame_witness :
    (∃ u0, findUserById dbUserWithAccounts 1 = some u0 ∧
      uAliceRenamed =
        { u0 with email := dtoName.email.getD u0.email, name := dtoName.name.getD u0.name }) ∧
    dbAfterRename.users = dbUserWithAccounts.users.map
      (fun v => if v.id == 1 then uAliceRenamed else v) ∧
    dbAfterRename.roles = dbUserWithAccounts.roles ∧
    (dtoName.password = none → dbAfterRename.accounts = dbUserWithAccounts.accounts) :=
  usersService_update_frame 1 dtoName false dbUserWithAccounts uAliceRenamed dbAfterRename rfl

/-- C1: the claim says every error from the credential-creation step or the
role-binding transaction is caught by the signup orchestrator and re-raised
as the single generic "unable to create account" error, the underlying
message never reaching the caller.  AuthService.signup contains no catch at
all: the first conjunct shows that for every provider error the caller
receives exactly that error, with its original code and message; the second
conjunct evaluates the orchestrator at the failing input of the repository
unit test (signUpEmail raising "Email already in use", the test expecting
"Unable to create account") and shows the propagated error differs from the
generic one; the third shows a role-binding error also propagates raw. -/
theorem authService_signup_propagates_underlying_errors :
    (∀ (c m : String) (dto : SignupDto) (cfg : Option String) (f1 f2 : Bool) (db : Db),
      AuthService.signup (fun d => (Except.error (SvcErr.provider c m), d)) dto cfg f1 f2 db =
        (Except.error (SvcErr.provider c m), db)) ∧
    (AuthService.signup
        (fun d => (Except.error (SvcErr.provider "USER_ALREADY_EXISTS" "Email already in use"), d))
        { email := "test@example.com", password := "password123", name := "Test User" }
        (some "admin@example.com") false false demoDb0 =
      (Except.error (SvcErr.provider "USER_ALREADY_EXISTS" "Email already in use"), demoDb0) ∧
      SvcErr.provider "USER_ALREADY_EXISTS" "Email already in use" ≠
        SvcErr.generic "Unable to create account") ∧
    (∀ (res : SignupResult) (dto : SignupDto) (cfg : Option String) (db : Db),
      AuthService.signup (fun d => (Except.ok res, d)) dto cfg true true db =
        (Except.error (SvcErr.db (DbErr.other "transient store failure")), db)) := by
  refine ⟨fun c m dto cfg f1 f2 db => rfl, ⟨rfl, by decide⟩, fun res dto cfg db => rfl⟩

/-- C2: the claim says classify returns ADMIN exactly on a case-insensitive
match with the configured admin email and that an unset or empty
configuration never matches.  The empty-string configuration does match the
empty email: the lowercase comparison compares two empty strings. -/
theorem classify_empty_config_counterexample :
    classify "" (some "") = "ADMIN" ∧ classify "" (some "") ≠ "USER" := by decide

/-- C2 amended: classify with an unset configuration always returns USER, and
classify with a present configuration returns ADMIN exactly when the two
lowercased strings coincide — so the empty-string configuration matches
exactly the empty email rather than never matching. -/
theorem classify_characterization (email a : String) :
    classify email none = "USER" ∧
    classify email (some a) =
      (if toLowerCase a = toLowerCase email then "ADMIN" else "USER") := by
  refine ⟨rfl, ?_⟩
  unfold classify isAdminEmail
  by_cases h : toLowerCase a = toLowerCase email
  · simp [h]
  · simp [h, beq_iff_eq]

/-- C2 amended, witness at the inputs of the testable properties: the ADMIN
match is case-insensitive and a mismatching email yields USER. -/
theorem classify_characterization_witness :
    classify "ADMIN@X.com" (some "admin@x.com") = "ADMIN" ∧
    classify "notadmin@x.com" (some "admin@x.com") = "USER" := by
  have h1 := (classify_characterization "ADMIN@X.com" "admin@x.com").2
  have h2 := (classify_characterization "notadmin@x.com" "admin@x.com").2
  refine ⟨?_, ?_⟩
  · rw [h1]; decide
  · rw [h2]; decide

/-- C3: resolveRole — realized as the role upsert with where name, empty
update clause and a create clause — is an idempotent get-or-create: from a
store in which the name is unique, the first call succeeds, the second call
returns the very same role row (its description argument ignored) and the
very same store, and exactly one role row with that name remains. -/
theorem roleUpsert_get_or_create_idempotent (name d1 d2 : String) (db : Db)
    (h : countRolesNamed db name ≤ 1) :
    ∃ r1 db1, roleUpsert name d1 false db = (Except.ok r1, db1) ∧
      roleUpsert name d2 false db1 = (Except.ok r1, db1) ∧
      countRolesNamed db1 name = 1 := by
  unfold roleUpsert
  cases hf : findRoleByName db name with
  | some r =>
      refine ⟨r, db, by simp [hf], by simp [hf], ?_⟩
      have hf2 : db.roles.find? (fun x => x.name == name) = some r := hf
      have hpos := length_filter_pos_of_find?_some (fun x => x.name == name) db.roles r hf2
      unfold countRolesNamed at h ⊢
      omega
  | none =>
      refine ⟨{ id := db.nextId, name := name, description := d1 },
        { db with roles := db.roles ++ [{ id := db.nextId, name := name, description := d1 }],
                  nextId := db.nextId + 1 }, by simp [hf], ?_, ?_⟩
      · have hfind : findRoleByName
            { db with roles := db.roles ++ [{ id := db.nextId, name := name, description := d1 }],
                      nextId := db.nextId + 1 } name =
            some { id := db.nextId, name := name, description := d1 } := by
          unfold findRoleByName at hf ⊢
          rw [find?_append_none _ _ _ hf]
          simp
        simp [hfind]
      · unfold countRolesNamed
        have hf2 : db.roles.find? (fun x => x.name == name) = none := hf
        have hnil := filter_eq_nil_of_find?_none (fun x => x.name == name) db.roles hf2
        simp [List.filter_append, hnil]

/-- C3 witness: two sequential calls on the empty store create the role once
and agree on the returned row. -/
theorem roleUpsert_get_or_create_idempotent_witness :
    ∃ r1 db1, roleUpsert "USER" "Regular user" false demoDb0 = (Except.ok r1, db1) ∧
      roleUpsert "USER" "ignored description" false db1 = (Except.ok r1, db1) ∧
      countRolesNamed db1 "USER" = 1 :=
  roleUpsert_get_or_create_idempotent "USER" "Regular user" "ignored description" demoDb0
    (by decide)

/-- C7: the claim says a referential-integrity violation caused by a
nonexistent roleId surfaces as the same NotFound-class failure as a missing
user.  On a store holding the user but not the role, updateRole re-throws
the raw foreign-key store error P2003, which is not the NotFound error. -/
theorem usersService_updateRole_fk_counterexample :
    UsersService.updateRole 1 99 dbUser1 =
      (Except.error (SvcErr.db (DbErr.known "P2003"
        "Foreign key constraint failed on the field: roleId")), dbUser1) ∧
    SvcErr.db (DbErr.known "P2003" "Foreign key constraint failed on the field: roleId") ≠
      SvcErr.notFound "User not found" := by
  refine ⟨rfl, by decide⟩

/-- C7 amended: updateRole is a single-row update of the role reference that
fails with NotFound "User not found" when the user id does not exist; it
performs no pre-validation of roleId, and when the referenced role does not
exist the raw store foreign-key error P2003 is re-thrown as-is rather than
being translated to the NotFound-class failure. -/
theorem usersService_updateRole_behavior (id roleId : Nat) (db : Db) :
    (findUserById db id = none →
      UsersService.updateRole id roleId db =
        (Except.error (SvcErr.notFound "User not found"), db)) ∧
    (∀ u, findUserById db id = some u → findRoleById db roleId = none →
      UsersService.updateRole id roleId db =
        (Except.error (SvcErr.db (DbErr.known "P2003"
          "Foreign key constraint failed on the field: roleId")), db)) ∧
    (∀ u r, findUserById db id = some u → findRoleById db roleId = some r →
      UsersService.updateRole id roleId db =
        (Except.ok { u with roleId := some roleId },
          { db with users :=
              db.users.map fun v =>
                if v.id == id then { u with roleId := some roleId } else v })) := by
  refine ⟨?_, ?_, ?_⟩
  · intro hnone
    unfold UsersService.updateRole userUpdateRoleById
    rw [hnone]
    rfl
  · intro u hu hr
    unfold UsersService.updateRole userUpdateRoleById
    rw [hu, hr]
    rfl
  · intro u r hu hr
    unfold UsersService.updateRole userUpdateRoleById
    rw [hu, hr]
    rfl

/-- C10: create with roleId omitted binds the role named USER for every
input, whatever the admin-email configuration says about that email; the
admin-bootstrap classification takes effect only on the signup path, where
the signup-completion hook binds the ADMIN role to a user whose email
matches the configuration. -/
theorem usersService_create_always_user_role (dto : CreateUserDto) (cfg : Option String)
    (f1 f2 f3 : Bool) (db : Db) (hrole : dto.roleId = none) :
    (∀ u db2, UsersService.create dto f1 f2 f3 db = (Except.ok u, db2) →
      ∃ r, findRoleByName db2 "USER" = some r ∧ r.name = "USER" ∧ u.roleId = some r.id) ∧
    (∀ u db2, findUserByEmail db dto.email = some u → isAdminEmail cfg dto.email = true →
      SignupHook.handle dto.email cfg false false db = (Except.ok (), db2) →
      ∃ r, findRoleByName db2 "ADMIN" = some r ∧ r.name = "ADMIN" ∧
        findUserByEmail db2 dto.email = some { u with roleId := some r.id }) := by
  constructor
  · intro u db2 h
    exact (createTx_ok_default dto (hash dto.password) f1 f2 f3 db hrole u db2
      (usersService_create_ok_elim dto f1 f2 f3 db db2 u h)).1
  · intro u db2 hu hadm hh
    unfold SignupHook.handle at hh
    rw [hu] at hh
    simp only at hh
    rw [hadm] at hh
    cases ht : transact (assignUserRole dto.email true false false) db with
    | mk res dbt =>
        rw [ht] at hh
        cases res with
        | error e => simp at hh
        | ok w =>
            simp only [Prod.mk.injEq, Except.ok.injEq, true_and] at hh
            have hassign := transact_ok_elim _ _ _ _ ht
            obtain ⟨role, u0, hfu0, hrn, hfindM, hw, hfindM2⟩ :=
              assignUserRole_ok_elim dto.email true false false db dbt w hassign
            have huu : u0 = u := by
              rw [hu] at hfu0
              exact (Option.some.inj hfu0).symm
            subst huu
            subst hw
            rw [← hh]
            exact ⟨role, hfindM, hrn, hfindM2⟩

/-- C10 witness: directory create on the empty store binds the USER role to
the new row, while the signup hook with a case-insensitively matching admin
configuration binds the ADMIN role to the same email. -/
theorem usersService_create_always_user_role_witness :
    (∃ r, findRoleByName dbAfterCreate "USER" = some r ∧ r.name = "USER" ∧
      uAlice.roleId = some r.id) ∧
    (∃ r, findRoleByName dbSignupAdmin "ADMIN" = some r ∧ r.name = "ADMIN" ∧
      findUserByEmail dbSignupAdmin dtoAlice.email =
        some { uAliceNoRole with roleId := some r.id }) := by
  constructor
  · exact (usersService_create_always_user_role dtoAlice none false false false demoDb0
      rfl).1 uAlice dbAfterCreate rfl
  · exact (usersService_create_always_user_role dtoAlice (some "A@B.C") false false false
      dbUser1 rfl).2 uAliceNoRole dbSignupAdmin rfl (by decide) rfl

/-- C8: when no user row carries the email, the signup-completion hook
returns without raising and without writing anything — the sole swallowed
condition; every other embedded operation re-raises on its failure
condition: the hook itself re-raises the generic error when the binding
transaction faults, create and update propagate an injected store fault as
an error on the rolled-back state, findOne, updateRole and remove report
the missing row, and the signup orchestrator propagates a binding fault. -/
theorem signupHook_absent_user_only_swallow (email : String) (cfg : Option String)
    (f1 f2 : Bool) (db : Db) (habs : findUserByEmail db email = none) :
    SignupHook.handle email cfg f1 f2 db = (Except.ok (), db) ∧
    (∀ e2 cfg2 f4 db2 u, findUserByEmail db2 e2 = some u →
      SignupHook.handle e2 cfg2 true f4 db2 =
        (Except.error (SvcErr.generic "Unable to create account"), db2)) ∧
    (∀ de dn dp f4 f5 db2,
      UsersService.create { email := de, name := dn, password := dp, roleId := none }
          f4 true f5 db2 =
        (Except.error (SvcErr.db (DbErr.other "transient store failure")), db2)) ∧
    (∀ i dto2 db2, UsersService.update i dto2 true db2 =
      (Except.error (SvcErr.db (DbErr.other "transient store failure")), db2)) ∧
    (∀ i db2, findUserById db2 i = none →
      UsersService.findOne i db2 = (Except.error (SvcErr.notFound "User not found"), db2)) ∧
    (∀ i rid db2, findUserById db2 i = none →
      UsersService.updateRole i rid db2 =
        (Except.error (SvcErr.notFound "User not found"), db2)) ∧
    (∀ i db2, findUserById db2 i = none →
      UsersService.remove i db2 = (Except.error (SvcErr.notFound "User not found"), db2)) ∧
    (∀ res dto2 cfg2 db2, AuthService.signup (fun d => (Except.ok res, d)) dto2 cfg2 true true
        db2 = (Except.error (SvcErr.db (DbErr.other "transient store failure")), db2)) := by
  refine ⟨?_, ?_, ?_, ?_, ?_, ?_, ?_, ?_⟩
  · unfold SignupHook.handle
    rw [habs]
  · intro e2 cfg2 f4 db2 u hu
    unfold SignupHook.handle
    rw [hu]
    rfl
  · intro de dn dp f4 f5 db2
    cases f4 with
    | true => rfl
    | false =>
        unfold UsersService.create transact createTx roleUpsert
        cases hfr : findRoleByName db2 "USER" with
        | some r => rfl
        | none => rfl
  · intro i dto2 db2
    rfl
  · intro i db2 hnone
    unfold UsersService.findOne
    rw [hnone]
  · intro i rid db2 hnone
    unfold UsersService.updateRole userUpdateRoleById
    rw [hnone]
    rfl
  · intro i db2 hnone
    unfold UsersService.remove userDeleteById
    rw [hnone]
    rfl
  · intro res dto2 cfg2 db2
    rfl

/-- C8 witness: the hook on the empty store and an unknown email returns
successfully with the store untouched. -/
theorem signupHook_absent_user_only_swallow_witness :
    SignupHook.handle "x@y.z" none false false demoDb0 = (Except.ok (), demoDb0) :=
  (signupHook_absent_user_only_swallow "x@y.z" none false false demoDb0 rfl).1

/-- C7 amended witness: on a store with user 1 and role 5, updateRole binds
the role; on the same store without the user, it reports NotFound. -/
theorem usersService_updateRole_behavior_witness :
    UsersService.updateRole 1 5 dbRoleAndUser =
      (Except.ok { id := 1, email := "a@b.c", name := "Alice", roleId := some 5 },
        { roles := [{ id := 5, name := "USER", description := "Regular user" }],
          users := [{ id := 1, email := "a@b.c", name := "Alice", roleId := some 5 }],
          accounts := [], nextId := 6 }) ∧
    UsersService.updateRole 3 5 demoDb0 =
      (Except.error (SvcErr.notFound "User not found"), demoDb0) := by
  constructor
  · exact (usersService_updateRole_behavior 1 5 dbRoleAndUser).2.2
      { id := 1, email := "a@b.c", name := "Alice", roleId := none }
      { id := 5, name := "USER", description := "Regular user" } rfl rfl
  · exact (usersService_updateRole_behavior 3 5 demoDb0).1 rfl

end NestAuth
